import Mathlib

/-!
Verification of the statsd metrics sink (`source/common/stats/statsd.{h,cc}`).

The embedding models byte sequences as `List Char` (the code only ever writes
ASCII). Machine-integer arithmetic is on `Nat`, with an explicit wrapping
subtraction where the source subtracts `uint64_t` quantities.

External collaborators (the Envoy buffer, the network connection, the cluster
manager, the stats counters) are represented by their observable effects:
the per-thread `TlsSink` state carries the committed flush buffer, the open
slice, the connection flag and the overflow-counter value, and every call to
the connection / provider / dispatcher is recorded as an `Event`.
-/

namespace Statsd

/-- `FlushSliceSizeBytes = 1024 * 16` (statsd.h): 16KiB intermediate slice. -/
def FlushSliceSizeBytes : Nat := 1024 * 16

/-- `MaxBufferedStatsBytes = 1024 * 1024 * 16` (statsd.h): 16MiB ceiling. -/
def MaxBufferedStatsBytes : Nat := 1024 * 1024 * 16

/-- `TcpStatsdSink::StatPrefix = "envoy."` (statsd.cc); the same prefix is
baked into every `fmt::format` pattern of the UDP `Writer`. -/
def statPfx : List Char := "envoy.".toList

/-- Wrapping `uint64_t` subtraction `a - b`, as in
`current_buffer_slice_.len_ - usedBuffer()`. -/
def u64sub (a b : Nat) : Nat := (a + (2 ^ 64 - b % 2 ^ 64)) % 2 ^ 64

/-- Modelled from the spec: `StringUtil::itoa` (`common/common/utility.h`,
not part of this tree) renders an unsigned integer in decimal. Fuel-based so
that it reduces structurally; `itoa` below supplies sufficient fuel. -/
def itoaCore : Nat → Nat → List Char
  | 0, _ => []
  | fuel + 1, n =>
    if n < 10 then [Char.ofNat (48 + n)]
    else itoaCore fuel (n / 10) ++ [Char.ofNat (48 + n % 10)]

/-- Decimal rendering of a `uint64_t` value. -/
def itoa (n : Nat) : List Char := itoaCore (n + 1) n

/-- The line `TlsSink::commonFlush` emits: `envoy.<name>:<value>|<type>\n`
(statsd.cc lines 121-130). -/
def statLine (name : List Char) (value : Nat) (statType : Char) : List Char :=
  statPfx ++ name ++ [':'] ++ itoa value ++ ['|', statType, '\n']

/-- The standalone line `TlsSink::onTimespanComplete` builds with
`fmt::format("envoy.\x7b\x7d:\x7b\x7d|ms\n", name, ms.count())`. -/
def timerLine (name : List Char) (ms : Nat) : List Char :=
  statPfx ++ name ++ [':'] ++ itoa ms ++ ['|', 'm', 's', '\n']

/-- `std::chrono::milliseconds(value)`: the count of the constructed duration
is the argument itself. -/
def milliseconds (value : Nat) : Nat := value

/-! ## UDP path: `Writer` and `UdpStatsdSink`

`Writer::send` performs exactly one `::send` (one datagram) per call; the
observable behaviour of each entry point is the list of datagram payloads it
sends. The `fmt::format` patterns in `writeCounter` / `writeGauge` /
`writeTimer` carry no trailing newline. -/

/-- `Writer::writeCounter`: `fmt::format("envoy.\x7b\x7d:\x7b\x7d|c", name, increment)`. -/
def Writer.writeCounter (name : List Char) (increment : Nat) : List Char :=
  statPfx ++ name ++ [':'] ++ itoa increment ++ ['|', 'c']

/-- `Writer::writeGauge`: `fmt::format("envoy.\x7b\x7d:\x7b\x7d|g", name, value)`. -/
def Writer.writeGauge (name : List Char) (value : Nat) : List Char :=
  statPfx ++ name ++ [':'] ++ itoa value ++ ['|', 'g']

/-- `Writer::writeTimer`: `fmt::format("envoy.\x7b\x7d:\x7b\x7d|ms", name, ms.count())`. -/
def Writer.writeTimer (name : List Char) (ms : Nat) : List Char :=
  statPfx ++ name ++ [':'] ++ itoa ms ++ ['|', 'm', 's']

/-- `Writer::send(message)`: one datagram holding `message`. -/
def Writer.send (message : List Char) : List (List Char) := [message]

/-- `UdpStatsdSink::flushCounter` delegates to the thread-local writer. -/
def UdpStatsdSink.flushCounter (name : List Char) (delta : Nat) :
    List (List Char) :=
  Writer.send (Writer.writeCounter name delta)

/-- `UdpStatsdSink::flushGauge`. -/
def UdpStatsdSink.flushGauge (name : List Char) (value : Nat) :
    List (List Char) :=
  Writer.send (Writer.writeGauge name value)

/-- `UdpStatsdSink::onTimespanComplete`. -/
def UdpStatsdSink.onTimespanComplete (name : List Char) (ms : Nat) :
    List (List Char) :=
  Writer.send (Writer.writeTimer name ms)

/-- `UdpStatsdSink::onHistogramComplete` (statsd.h lines 52-55): forwards to
`onTimespanComplete(name, std::chrono::milliseconds(value))`. -/
def UdpStatsdSink.onHistogramComplete (name : List Char) (value : Nat) :
    List (List Char) :=
  UdpStatsdSink.onTimespanComplete name (milliseconds value)

/-! ## TCP path: `TcpStatsdSink::TlsSink` -/

/-- `connection_` (is there a live connection object) and the
`statsd.cx_overflow` counter `cx_overflow_stat_`. -/
structure ConnState where
  connection : Bool
  overflow : Nat
  deriving DecidableEq, Repr

/-- Environment read at `write` time: the shared
`upstream_cx_tx_bytes_buffered_` counter value and whether
`cluster_manager_.tcpConnForCluster` can return a connection. -/
structure WriteCtx where
  txBuffered : Nat
  connAvail : Bool
  deriving DecidableEq, Repr

/-- Calls the sink makes on its collaborators, in order. -/
inductive Event where
  /-- `connection_->close(ConnectionCloseType::NoFlush)` -/
  | close
  /-- `cluster_manager_.tcpConnForCluster(...)` -/
  | connRequest
  /-- `connection_->connect()` -/
  | connect
  /-- `connection_->write(buffer)` handing over these bytes -/
  | connWrite (bytes : List Char)
  /-- `dispatcher_.deferredDelete(std::move(connection_))` -/
  | deferredDelete
  deriving DecidableEq, Repr

/-- The payloads handed to `connection_->write` within an event trace. -/
def writtenBytes : List Event → List (List Char)
  | [] => []
  | Event.connWrite b :: es => b :: writtenBytes es
  | _ :: es => writtenBytes es

/-- Per-thread sink state: `buffer_` (committed bytes), the open slice
(`current_buffer_slice_` content up to `current_slice_mem_`; `sliceOpen`
is `current_slice_mem_ != nullptr`), plus the connection state. -/
structure TlsSink where
  buffer : List Char
  sliceOpen : Bool
  slice : List Char
  conn : ConnState
  deriving DecidableEq, Repr

/-- `TlsSink::usedBuffer`: bytes written into the open slice so far. -/
def TlsSink.usedBuffer (s : TlsSink) : Nat := s.slice.length

/-- `TlsSink::beginFlush(expect_empty_buffer)`: reserve a fresh
`FlushSliceSizeBytes` slice and point the cursor at its start. The
`expect_empty_buffer` argument only feeds an `ASSERT`, captured separately
by `beginFlushAssert`. -/
def TlsSink.beginFlush (_expectEmptyBuffer : Bool) (s : TlsSink) : TlsSink :=
  { s with sliceOpen := true, slice := [] }

/-- The `ASSERT(!expect_empty_buffer || buffer_.length() == 0)` and
`ASSERT(current_slice_mem_ == nullptr)` guarding `TlsSink::beginFlush`. -/
def beginFlushAssert (expectEmptyBuffer : Bool) (s : TlsSink) : Prop :=
  (expectEmptyBuffer = true → s.buffer = []) ∧ s.sliceOpen = false

instance (b : Bool) (s : TlsSink) : Decidable (beginFlushAssert b s) := by
  unfold beginFlushAssert; infer_instance

/-- The commit step shared by `TlsSink::endFlush` (lines 143-145): trim the
slice to the bytes used, append it to `buffer_`, null the cursor. -/
def TlsSink.commitSlice (s : TlsSink) : TlsSink :=
  { s with buffer := s.buffer ++ s.slice, slice := [], sliceOpen := false }

/-- `TlsSink::commonFlush(name, value, stat_type)`: rotate the slice when
fewer than `name.size() + 40` bytes remain (`endFlush(false)` then
`beginFlush(false)`), then write `envoy.<name>:<value>|<type>\n` at the
cursor. The remaining-capacity subtraction is `uint64_t`. -/
def TlsSink.commonFlush (name : List Char) (value : Nat) (statType : Char)
    (s : TlsSink) : TlsSink :=
  let s1 :=
    if u64sub FlushSliceSizeBytes s.usedBuffer < name.length + 40 then
      TlsSink.beginFlush false (TlsSink.commitSlice s)
    else s
  { s1 with slice := s1.slice ++ statLine name value statType }

/-- `TlsSink::flushCounter`. -/
def TlsSink.flushCounter (name : List Char) (delta : Nat) (s : TlsSink) :
    TlsSink :=
  TlsSink.commonFlush name delta 'c' s

/-- `TlsSink::flushGauge`. -/
def TlsSink.flushGauge (name : List Char) (value : Nat) (s : TlsSink) :
    TlsSink :=
  TlsSink.commonFlush name value 'g' s

/-- `TlsSink::write(buffer)` (statsd.cc lines 165-203). Takes the connection
state, the environment and the contents of the buffer argument; returns the
new connection state, the bytes left in that buffer afterwards, and the
collaborator calls made. Branches, in source order:
* buffered-bytes guard `> MaxBufferedStatsBytes`: close a live connection
  (its `LocalClose` event nulls `connection_` via `deferredDelete`),
  increment `cx_overflow_stat_`, drain the buffer, return;
* `!connection_`: ask the cluster manager for a connection; if none, plain
  `return` — the buffer keeps its contents; otherwise install callbacks and
  `connect()`;
* `connection_->write(buffer)` — per the spec the connection moves the bytes
  into its own send buffer, draining the argument. -/
def writeFn (c : ConnState) (ctx : WriteCtx) (buf : List Char) :
    ConnState × List Char × List Event :=
  if MaxBufferedStatsBytes < ctx.txBuffered then
    ({ connection := false, overflow := c.overflow + 1 }, [],
      if c.connection then [Event.close] else [])
  else if c.connection then
    (c, [], [Event.connWrite buf])
  else if ctx.connAvail then
    ({ c with connection := true }, [],
      [Event.connRequest, Event.connect, Event.connWrite buf])
  else
    (c, buf, [Event.connRequest])

/-- `TlsSink::endFlush(do_write)`: commit the open slice, then, when
`do_write`, hand `buffer_` to `write`. -/
def TlsSink.endFlush (doWrite : Bool) (ctx : WriteCtx) (s : TlsSink) :
    TlsSink × List Event :=
  let c := TlsSink.commitSlice s
  if doWrite then
    let r := writeFn c.conn ctx c.buffer
    ({ c with conn := r.1, buffer := r.2.1 }, r.2.2)
  else (c, [])

/-- `TlsSink::onTimespanComplete(name, ms)`: build a standalone one-line
buffer and `write` it immediately; `buffer_` and the open slice are not
touched, and the standalone buffer is a local discarded on return. -/
def TlsSink.onTimespanComplete (name : List Char) (ms : Nat) (ctx : WriteCtx)
    (s : TlsSink) : TlsSink × List Event :=
  let r := writeFn s.conn ctx (timerLine name ms)
  ({ s with conn := r.1 }, r.2.2)

/-- `TcpStatsdSink::onHistogramComplete` (statsd.h lines 87-90): forwards to
`onTimespanComplete(name, std::chrono::milliseconds(value))`. -/
def TlsSink.onHistogramComplete (name : List Char) (value : Nat)
    (ctx : WriteCtx) (s : TlsSink) : TlsSink × List Event :=
  TlsSink.onTimespanComplete name (milliseconds value) ctx s

/-- `TlsSink::onEvent(events)` (statsd.cc lines 151-156): on `LocalClose` or
`RemoteClose`, `dispatcher_.deferredDelete(std::move(connection_))` — the
connection pointer is moved out (state reverts to no-connection) and the
object's destruction is deferred to the dispatcher. -/
def TlsSink.onEvent (localClose remoteClose : Bool) (s : TlsSink) :
    TlsSink × List Event :=
  if localClose || remoteClose then
    ({ s with conn := { s.conn with connection := false } },
      [Event.deferredDelete])
  else (s, [])

/-! ## Flush cycles -/

/-- One counter or gauge sample flushed within a cycle. -/
inductive Metric where
  | counter (name : List Char) (delta : Nat)
  | gauge (name : List Char) (value : Nat)
  deriving DecidableEq, Repr

/-- Dispatch of one sample to the sink. -/
def flushMetric (m : Metric) (s : TlsSink) : TlsSink :=
  match m with
  | Metric.counter n d => TlsSink.flushCounter n d s
  | Metric.gauge n v => TlsSink.flushGauge n v s

/-- A sequence of `flushCounter` / `flushGauge` calls, in call order. -/
def flushAll (ms : List Metric) (s : TlsSink) : TlsSink :=
  ms.foldl (fun s m => flushMetric m s) s

/-- The wire line of one sample. -/
def wireLine (m : Metric) : List Char :=
  match m with
  | Metric.counter n d => statLine n d 'c'
  | Metric.gauge n v => statLine n v 'g'

/-- A sample the slice-rotation margin was designed for: name small enough to
fit a fresh slice with the 40-byte margin, value within `uint64_t`. -/
def wellSized (m : Metric) : Prop :=
  match m with
  | Metric.counter n d => n.length + 40 ≤ FlushSliceSizeBytes ∧ d < 2 ^ 64
  | Metric.gauge n v => n.length + 40 ≤ FlushSliceSizeBytes ∧ v < 2 ^ 64

/-! ## Helper lemmas -/

/-- One `commonFlush` appends exactly its wire line to the accumulated bytes
(committed buffer plus open slice), whether or not the slice rotates, and
leaves the connection state alone. -/
theorem commonFlush_content (name : List Char) (value : Nat) (statType : Char)
    (s : TlsSink) :
    (TlsSink.commonFlush name value statType s).buffer
        ++ (TlsSink.commonFlush name value statType s).slice
      = s.buffer ++ s.slice ++ statLine name value statType
    ∧ (TlsSink.commonFlush name value statType s).conn = s.conn := by
  unfold TlsSink.commonFlush TlsSink.beginFlush TlsSink.commitSlice
  dsimp only
  split <;> simp

/-- `commonFlush` lifted to `flushMetric`. -/
theorem flushMetric_content (m : Metric) (s : TlsSink) :
    (flushMetric m s).buffer ++ (flushMetric m s).slice
      = s.buffer ++ s.slice ++ wireLine m
    ∧ (flushMetric m s).conn = s.conn := by
  cases m <;>
    exact commonFlush_content _ _ _ _

/-- A whole call sequence appends the concatenation of its wire lines, in
call order, and leaves the connection state alone. -/
theorem flushAll_content (ms : List Metric) : ∀ s : TlsSink,
    (flushAll ms s).buffer ++ (flushAll ms s).slice
      = s.buffer ++ s.slice ++ (ms.map wireLine).flatten
    ∧ (flushAll ms s).conn = s.conn := by
  induction ms with
  | nil => intro s; simp [flushAll]
  | cons m ms ih =>
    intro s
    have h1 := flushMetric_content m s
    have h2 := ih (flushMetric m s)
    have hstep : flushAll (m :: ms) s = flushAll ms (flushMetric m s) := rfl
    rw [hstep]
    refine ⟨?_, h2.2.trans h1.2⟩
    rw [h2.1, h1.1]
    simp

/-- A full cycle run from a connectionless sink with an empty committed
buffer, the counter at or under the ceiling and the provider able to supply
a connection: the collaborator calls are, in order, the provider request,
`connect()`, and the write of the cycle's bytes. -/
theorem endFlush_events_noconn (ms : List Metric) (t : TlsSink)
    (ctx : WriteCtx) (hbuf : t.buffer = [])
    (hconn : t.conn.connection = false)
    (hbp : ctx.txBuffered ≤ MaxBufferedStatsBytes)
    (hav : ctx.connAvail = true) :
    (TlsSink.endFlush true ctx (flushAll ms (TlsSink.beginFlush true t))).2
      = [Event.connRequest, Event.connect,
          Event.connWrite ((ms.map wireLine).flatten)] := by
  obtain ⟨hcontent, hc⟩ := flushAll_content ms (TlsSink.beginFlush true t)
  have hb0 : (TlsSink.beginFlush true t).buffer = t.buffer := rfl
  have hs0 : (TlsSink.beginFlush true t).slice = [] := rfl
  have hcc : (TlsSink.beginFlush true t).conn = t.conn := rfl
  rw [hb0, hs0, hbuf] at hcontent
  rw [hcc] at hc
  simp only [List.append_nil, List.nil_append] at hcontent
  show (writeFn (flushAll ms (TlsSink.beginFlush true t)).conn ctx
      ((flushAll ms (TlsSink.beginFlush true t)).buffer
        ++ (flushAll ms (TlsSink.beginFlush true t)).slice)).2.2
    = [Event.connRequest, Event.connect,
        Event.connWrite ((ms.map wireLine).flatten)]
  rw [hc, hcontent]
  unfold writeFn
  rw [if_neg (by omega), if_neg (by simp [hconn]), if_pos hav]

/-! ## Claims -/

/-- Claim C1: between one `beginFlush` and the following
`endFlush(do_write=true)` with an empty committed buffer, a reachable
connection (already established, or obtainable from the provider) and the
backpressure counter at or under the ceiling, the byte sequence handed to
the connection's `write` is exactly the concatenation, in call order, of
`envoy.<name>:<value>|c\n` / `envoy.<name>:<value>|g\n` for each
`flushCounter` / `flushGauge` of the cycle, however many 16KiB slice
rotations happen inside `commonFlush`. -/
theorem tcp_cycle_exact_bytes (ms : List Metric) (s : TlsSink) (ctx : WriteCtx)
    (hbuf : s.buffer = [])
    (hconn : s.conn.connection = true ∨ ctx.connAvail = true)
    (hbp : ctx.txBuffered ≤ MaxBufferedStatsBytes) :
    writtenBytes
        (TlsSink.endFlush true ctx (flushAll ms (TlsSink.beginFlush true s))).2
      = [(ms.map wireLine).flatten] := by
  obtain ⟨hcontent, hc⟩ := flushAll_content ms (TlsSink.beginFlush true s)
  have hb0 : (TlsSink.beginFlush true s).buffer = s.buffer := rfl
  have hs0 : (TlsSink.beginFlush true s).slice = [] := rfl
  have hcc : (TlsSink.beginFlush true s).conn = s.conn := rfl
  rw [hb0, hs0, hbuf] at hcontent
  rw [hcc] at hc
  simp only [List.append_nil, List.nil_append] at hcontent
  show writtenBytes
      (writeFn (flushAll ms (TlsSink.beginFlush true s)).conn ctx
        ((flushAll ms (TlsSink.beginFlush true s)).buffer
          ++ (flushAll ms (TlsSink.beginFlush true s)).slice)).2.2
    = [(ms.map wireLine).flatten]
  rw [hc, hcontent]
  unfold writeFn
  rw [if_neg (by omega)]
  rcases hconn with h | h
  · rw [if_pos h]; rfl
  · by_cases hc2 : s.conn.connection = true
    · rw [if_pos hc2]; rfl
    · rw [if_neg hc2, if_pos h]; rfl

/-- Witness for `tcp_cycle_exact_bytes`: a concrete two-call cycle. -/
theorem tcp_cycle_exact_bytes_witness :
    writtenBytes
        (TlsSink.endFlush true ⟨0, true⟩
          (flushAll [Metric.counter "test_counter".toList 1,
                     Metric.gauge "test_gauge".toList 2]
            (TlsSink.beginFlush true ⟨[], false, [], ⟨true, 0⟩⟩))).2
      = [(([Metric.counter "test_counter".toList 1,
            Metric.gauge "test_gauge".toList 2]).map wireLine).flatten] :=
  tcp_cycle_exact_bytes
    [Metric.counter "test_counter".toList 1, Metric.gauge "test_gauge".toList 2]
    ⟨[], false, [], ⟨true, 0⟩⟩ ⟨0, true⟩ rfl (Or.inl rfl) (by decide)

/-- Claim C2 fails on the code: when `write` cannot obtain a connection from
the provider it returns without draining `buffer_` (statsd.cc lines 189-191
have no `drain`), so after `endFlush(do_write=true)` of a one-counter cycle
with no connection available and the counter under the ceiling, the buffer
still holds the whole line — and the next cycle's
`ASSERT(!expect_empty_buffer || buffer_.length() == 0)` in
`beginFlush(true)` is violated. -/
theorem endFlush_drop_retains_buffer :
    (TlsSink.endFlush true ⟨0, false⟩
        (TlsSink.flushCounter "a".toList 1
          (TlsSink.beginFlush true ⟨[], false, [], ⟨false, 0⟩⟩))).1.buffer
      = "envoy.a:1|c\n".toList
    ∧ ¬ beginFlushAssert true
        (TlsSink.endFlush true ⟨0, false⟩
          (TlsSink.flushCounter "a".toList 1
            (TlsSink.beginFlush true ⟨[], false, [], ⟨false, 0⟩⟩))).1 := by
  decide

/-- Claim C3: whenever `write` runs with the shared buffered-bytes counter
strictly above the 16MiB ceiling, no bytes reach any connection, a live
connection is closed without flushing, the pending buffer is discarded and
the overflow counter goes up by exactly one; two consecutive over-ceiling
writes add two; and a write with the counter back at or under the ceiling
and a reachable connection transmits its bytes normally again. -/
theorem tcp_overflow_handling :
    (∀ (c : ConnState) (ctx : WriteCtx) (buf : List Char),
        MaxBufferedStatsBytes < ctx.txBuffered →
        writeFn c ctx buf
          = ({ connection := false, overflow := c.overflow + 1 }, [],
              if c.connection then [Event.close] else []))
    ∧ (∀ (c : ConnState) (ctx₁ ctx₂ : WriteCtx) (buf₁ buf₂ : List Char),
        MaxBufferedStatsBytes < ctx₁.txBuffered →
        MaxBufferedStatsBytes < ctx₂.txBuffered →
        (writeFn (writeFn c ctx₁ buf₁).1 ctx₂ buf₂).1.overflow
          = c.overflow + 2)
    ∧ (∀ (c : ConnState) (ctx : WriteCtx) (buf : List Char),
        ctx.txBuffered ≤ MaxBufferedStatsBytes → ctx.connAvail = true →
        writtenBytes (writeFn c ctx buf).2.2 = [buf]
          ∧ (writeFn c ctx buf).1.overflow = c.overflow) := by
  refine ⟨?_, ?_, ?_⟩
  · intro c ctx buf h
    unfold writeFn
    rw [if_pos h]
  · intro c ctx₁ ctx₂ buf₁ buf₂ h1 h2
    unfold writeFn
    rw [if_pos h1]
    dsimp only
    rw [if_pos h2]
  · intro c ctx buf hle hav
    unfold writeFn
    rw [if_neg (by omega)]
    by_cases hc : c.connection = true
    · rw [if_pos hc]; exact ⟨rfl, rfl⟩
    · rw [if_neg hc, if_pos hav]; exact ⟨rfl, rfl⟩

/-- Witness for `tcp_overflow_handling`: counter at 17MiB against the
16MiB ceiling with a live connection, twice in a row, then a normal write
at counter 0. -/
theorem tcp_overflow_handling_witness :
    writeFn ⟨true, 0⟩ ⟨1024 * 1024 * 17, true⟩ "x".toList
        = ({ connection := false, overflow := 1 },
            [], if (⟨true, 0⟩ : ConnState).connection then [Event.close] else [])
    ∧ (writeFn (writeFn ⟨true, 0⟩ ⟨1024 * 1024 * 17, true⟩ "x".toList).1
          ⟨1024 * 1024 * 17, false⟩ []).1.overflow = 0 + 2
    ∧ writtenBytes (writeFn ⟨false, 0⟩ ⟨0, true⟩ "y".toList).2.2
        = ["y".toList] :=
  ⟨tcp_overflow_handling.1 ⟨true, 0⟩ ⟨1024 * 1024 * 17, true⟩ "x".toList
      (by decide),
    tcp_overflow_handling.2.1 ⟨true, 0⟩ ⟨1024 * 1024 * 17, true⟩
      ⟨1024 * 1024 * 17, false⟩ "x".toList [] (by decide) (by decide),
    (tcp_overflow_handling.2.2 ⟨false, 0⟩ ⟨0, true⟩ "y".toList
      (by decide) rfl).1⟩

/-- Claim C4: the backpressure guard is the pure strict comparison
`buffered_bytes > MaxBufferedStatsBytes` of statsd.cc line 176: the overflow
counter moves exactly when the counter is strictly above the ceiling —
independently of connection state, prior overflow count or buffer contents,
so it re-trips on every evaluation while over — and a value of exactly the
ceiling proceeds as a normal write. -/
theorem backpressure_guard_strict :
    (∀ (c : ConnState) (ctx : WriteCtx) (buf : List Char),
        (writeFn c ctx buf).1.overflow ≠ c.overflow
          ↔ MaxBufferedStatsBytes < ctx.txBuffered)
    ∧ (∀ (c : ConnState) (av : Bool) (buf : List Char),
        c.connection = true →
        writeFn c ⟨MaxBufferedStatsBytes, av⟩ buf
          = (c, [], [Event.connWrite buf])) := by
  constructor
  · intro c ctx buf
    unfold writeFn
    by_cases h : MaxBufferedStatsBytes < ctx.txBuffered
    · rw [if_pos h]
      simpa using h
    · rw [if_neg h]
      by_cases hc : c.connection = true
      · rw [if_pos hc]; simpa using h
      · rw [if_neg hc]
        by_cases hav : ctx.connAvail = true
        · rw [if_pos hav]; simpa using h
        · rw [if_neg hav]; simpa using h
  · intro c av buf hc
    unfold writeFn
    rw [if_neg (by simp), if_pos hc]

/-- Witness for `backpressure_guard_strict`: exactly-at-ceiling write with a
live connection, and the guard evaluated just above the ceiling. -/
theorem backpressure_guard_strict_witness :
    ((writeFn ⟨false, 3⟩ ⟨MaxBufferedStatsBytes + 1, false⟩ []).1.overflow ≠ 3
      ↔ MaxBufferedStatsBytes < MaxBufferedStatsBytes + 1)
    ∧ writeFn ⟨true, 0⟩ ⟨MaxBufferedStatsBytes, true⟩ "x".toList
        = (⟨true, 0⟩, [], [Event.connWrite "x".toList]) :=
  ⟨backpressure_guard_strict.1 ⟨false, 3⟩ ⟨MaxBufferedStatsBytes + 1, false⟩ [],
    backpressure_guard_strict.2 ⟨true, 0⟩ true "x".toList rfl⟩

/-- Claim C5 as stated is false: the UDP `fmt::format` patterns
(`"envoy.\x7b\x7d:\x7b\x7d|c"` etc., statsd.cc lines 36-49) carry no
trailing newline, so `flushCounter("a", 1)` sends the datagram
`envoy.a:1|c`, not the newline-terminated `envoy.a:1|c\n` the claim
demands. -/
theorem udp_newline_cex :
    UdpStatsdSink.flushCounter "a".toList 1 ≠ ["envoy.a:1|c\n".toList]
    ∧ UdpStatsdSink.flushCounter "a".toList 1 = ["envoy.a:1|c".toList] := by
  decide

/-- Claim C5 amended: every UDP-sink `flushCounter` / `flushGauge` /
`onTimespanComplete` call sends exactly one datagram whose payload is
`envoy.<name>:<value>|<type>` with type `c` / `g` / `ms` and no trailing
newline; nothing is batched across calls. -/
theorem udp_one_datagram_per_call :
    (∀ (name : List Char) (delta : Nat),
        UdpStatsdSink.flushCounter name delta
          = [statPfx ++ name ++ [':'] ++ itoa delta ++ ['|', 'c']])
    ∧ (∀ (name : List Char) (value : Nat),
        UdpStatsdSink.flushGauge name value
          = [statPfx ++ name ++ [':'] ++ itoa value ++ ['|', 'g']])
    ∧ (∀ (name : List Char) (ms : Nat),
        UdpStatsdSink.onTimespanComplete name ms
          = [statPfx ++ name ++ [':'] ++ itoa ms ++ ['|', 'm', 's']]) :=
  ⟨fun _ _ => rfl, fun _ _ => rfl, fun _ _ => rfl⟩

/-- Claim C6: on both sinks, `onHistogramComplete(name, value)` makes
exactly the calls `onTimespanComplete(name, milliseconds(value))` makes
(statsd.h lines 52-55 and 87-90 forward verbatim). -/
theorem onHistogramComplete_eq_onTimespanComplete :
    (∀ (name : List Char) (value : Nat) (ctx : WriteCtx) (s : TlsSink),
        TlsSink.onHistogramComplete name value ctx s
          = TlsSink.onTimespanComplete name (milliseconds value) ctx s)
    ∧ ∀ (name : List Char) (value : Nat),
        UdpStatsdSink.onHistogramComplete name value
          = UdpStatsdSink.onTimespanComplete name (milliseconds value) :=
  ⟨fun _ _ _ _ => rfl, fun _ _ => rfl⟩

/-- Claim C7 is right about the request, the state, and the absence of an
error, but wrong about the batch: on the no-connection-obtainable path
(statsd.cc lines 189-191) the provider is consulted, the state stays
connectionless, the call returns normally — yet the batch is *retained* in
the buffer, not silently dropped, because the early `return` skips any
drain. -/
theorem write_no_conn_retains_batch :
    writeFn ⟨false, 0⟩ ⟨0, false⟩ "envoy.a:1|c\n".toList
      = (⟨false, 0⟩, "envoy.a:1|c\n".toList, [Event.connRequest])
    ∧ "envoy.a:1|c\n".toList ≠ [] := by
  decide

/-- Claim C8: a local- or remote-close event delivered to `onEvent` hands
the connection object to the dispatcher's deferred-deletion queue (it is
not destroyed inside the callback) and leaves the sink connectionless, so
the next `endFlush(do_write=true)` cycle asks the provider for a fresh
connection and calls `connect()` before handing over its bytes. -/
theorem close_event_then_reconnect (s : TlsSink) (localClose remoteClose : Bool)
    (ctx : WriteCtx) (ms : List Metric)
    (hclose : localClose = true ∨ remoteClose = true)
    (hbp : ctx.txBuffered ≤ MaxBufferedStatsBytes)
    (hav : ctx.connAvail = true) (hbuf : s.buffer = []) :
    (TlsSink.onEvent localClose remoteClose s).2 = [Event.deferredDelete]
    ∧ (TlsSink.onEvent localClose remoteClose s).1.conn.connection = false
    ∧ (TlsSink.endFlush true ctx
          (flushAll ms (TlsSink.beginFlush true
            (TlsSink.onEvent localClose remoteClose s).1))).2
        = [Event.connRequest, Event.connect,
            Event.connWrite ((ms.map wireLine).flatten)] := by
  have hcond : (localClose || remoteClose) = true := by
    rcases hclose with h | h <;> simp [h]
  have hev : TlsSink.onEvent localClose remoteClose s
      = ({ s with conn := { s.conn with connection := false } },
          [Event.deferredDelete]) := by
    unfold TlsSink.onEvent
    rw [if_pos hcond]
  refine ⟨by rw [hev], by rw [hev], ?_⟩
  have ht1 : (TlsSink.onEvent localClose remoteClose s).1.buffer = [] := by
    rw [hev]; exact hbuf
  have ht2 : (TlsSink.onEvent localClose remoteClose s).1.conn.connection
      = false := by
    rw [hev]
  exact endFlush_events_noconn ms _ ctx ht1 ht2 hbp hav

/-- Witness for `close_event_then_reconnect`: a remote close on a connected
sink, followed by a one-counter cycle with the provider available. -/
theorem close_event_then_reconnect_witness :
    (TlsSink.onEvent false true ⟨[], false, [], ⟨true, 0⟩⟩).2
        = [Event.deferredDelete]
    ∧ (TlsSink.onEvent false true ⟨[], false, [], ⟨true, 0⟩⟩).1.conn.connection
        = false
    ∧ (TlsSink.endFlush true ⟨0, true⟩
          (flushAll [Metric.counter "a".toList 1] (TlsSink.beginFlush true
            (TlsSink.onEvent false true ⟨[], false, [], ⟨true, 0⟩⟩).1))).2
        = [Event.connRequest, Event.connect,
            Event.connWrite ((([Metric.counter "a".toList 1]).map
              wireLine).flatten)] :=
  close_event_then_reconnect ⟨[], false, [], ⟨true, 0⟩⟩ false true ⟨0, true⟩
    [Metric.counter "a".toList 1] (Or.inr rfl) (by decide) rfl rfl

/-- Claim C9: `onTimespanComplete` hands the connection's `write` a
standalone buffer holding exactly `envoy.<name>:<ms>|ms\n` (here: with a
live connection and the counter at or under the ceiling, the sole
collaborator call is that write), and the shared flush buffer, its
committed contents and the open slice are untouched. -/
theorem onTimespanComplete_standalone (name : List Char) (ms : Nat)
    (ctx : WriteCtx) (s : TlsSink) (hconn : s.conn.connection = true)
    (hbp : ctx.txBuffered ≤ MaxBufferedStatsBytes) :
    (TlsSink.onTimespanComplete name ms ctx s).2
        = [Event.connWrite (timerLine name ms)]
    ∧ (TlsSink.onTimespanComplete name ms ctx s).1.buffer = s.buffer
    ∧ (TlsSink.onTimespanComplete name ms ctx s).1.slice = s.slice
    ∧ (TlsSink.onTimespanComplete name ms ctx s).1.sliceOpen = s.sliceOpen := by
  unfold TlsSink.onTimespanComplete writeFn
  dsimp only
  rw [if_neg (by omega), if_pos hconn]
  exact ⟨rfl, rfl, rfl, rfl⟩

/-- Witness for `onTimespanComplete_standalone`: `test_timer` at 5ms on a
connected sink holding committed bytes and an open slice. -/
theorem onTimespanComplete_standalone_witness :
    (TlsSink.onTimespanComplete "test_timer".toList 5 ⟨0, true⟩
        ⟨"b".toList, true, "c".toList, ⟨true, 0⟩⟩).2
      = [Event.connWrite (timerLine "test_timer".toList 5)]
    ∧ (TlsSink.onTimespanComplete "test_timer".toList 5 ⟨0, true⟩
        ⟨"b".toList, true, "c".toList, ⟨true, 0⟩⟩).1.buffer = "b".toList
    ∧ (TlsSink.onTimespanComplete "test_timer".toList 5 ⟨0, true⟩
        ⟨"b".toList, true, "c".toList, ⟨true, 0⟩⟩).1.slice = "c".toList
    ∧ (TlsSink.onTimespanComplete "test_timer".toList 5 ⟨0, true⟩
        ⟨"b".toList, true, "c".toList, ⟨true, 0⟩⟩).1.sliceOpen = true :=
  onTimespanComplete_standalone "test_timer".toList 5 ⟨0, true⟩
    ⟨"b".toList, true, "c".toList, ⟨true, 0⟩⟩ rfl (by decide)

/-- `uint64_t` subtraction agrees with truncated `Nat` subtraction when the
minuend is in range and at least the subtrahend. -/
theorem u64sub_of_le (a b : Nat) (hb : b ≤ a) (ha : a < 2 ^ 64) :
    u64sub a b = a - b := by
  unfold u64sub
  have h64 : (2 : Nat) ^ 64 = 18446744073709551616 := by norm_num
  rw [h64] at ha ⊢
  omega

/-- A number below `10^k` has at most `k` decimal digits. -/
theorem itoaCore_length_le (fuel : Nat) : ∀ n k : Nat, 1 ≤ k → n < 10 ^ k →
    (itoaCore fuel n).length ≤ k := by
  induction fuel with
  | zero => intro n k hk _; simp [itoaCore]
  | succ fuel ih =>
    intro n k hk hn
    unfold itoaCore
    split
    · simpa using hk
    · rename_i h10
      push_neg at h10
      have hk2 : 2 ≤ k := by
        rcases Nat.lt_or_ge k 2 with h | h
        · exfalso
          have hk1 : k = 1 := by omega
          rw [hk1] at hn
          simp at hn
          omega
        · exact h
      have hpow : 10 ^ k = 10 ^ (k - 1) * 10 := by
        rw [← pow_succ]
        congr 1
        omega
      have hdiv : n / 10 < 10 ^ (k - 1) :=
        Nat.div_lt_of_lt_mul (by rw [mul_comm, ← hpow]; exact hn)
      have := ih (n / 10) (k - 1) (by omega) hdiv
      rw [List.length_append]
      simp only [List.length_singleton]
      omega

/-- A `uint64_t` value renders in at most 20 decimal characters. -/
theorem itoa_length_le (n : Nat) (h : n < 2 ^ 64) : (itoa n).length ≤ 20 := by
  have h20 : n < 10 ^ 20 := lt_of_lt_of_le h (by norm_num)
  exact itoaCore_length_le (n + 1) n 20 (by norm_num) h20

/-- The encoded line fits in `name.length + 30` bytes, inside the 40-byte
margin `commonFlush` keeps free. -/
theorem statLine_length_le (name : List Char) (value : Nat) (t : Char)
    (h : value < 2 ^ 64) :
    (statLine name value t).length ≤ name.length + 30 := by
  have hi := itoa_length_le value h
  have hp : statPfx.length = 6 := rfl
  simp only [statLine, List.length_append, hp]
  simp only [List.length_singleton, List.length_cons, List.length_nil]
  omega

/-- One well-sized `commonFlush` keeps the write cursor inside the
16KiB slice: the rotation check leaves at least `name.length + 40` free
bytes, which dominate the line's `name.length + 30`. -/
theorem commonFlush_slice_bound (name : List Char) (value : Nat) (t : Char)
    (s : TlsSink) (hname : name.length + 40 ≤ FlushSliceSizeBytes)
    (hv : value < 2 ^ 64) (hs : s.slice.length ≤ FlushSliceSizeBytes) :
    (TlsSink.commonFlush name value t s).slice.length ≤ FlushSliceSizeBytes := by
  have hline := statLine_length_le name value t hv
  unfold TlsSink.commonFlush TlsSink.beginFlush TlsSink.commitSlice
    TlsSink.usedBuffer
  dsimp only
  split
  · simp only [List.nil_append, List.length_append]
    omega
  · rename_i hcond
    have husub : u64sub FlushSliceSizeBytes s.slice.length
        = FlushSliceSizeBytes - s.slice.length :=
      u64sub_of_le _ _ hs (by norm_num [FlushSliceSizeBytes])
    rw [husub] at hcond
    push_neg at hcond
    simp only [List.length_append]
    omega

/-- Claim C10: along any sequence of `flushCounter` / `flushGauge` calls
whose names satisfy `name.size() + 40 <= FlushSliceSizeBytes` and whose
values are `uint64_t`, the bytes written into the open slice never exceed
its 16KiB reservation, so the unchecked `memcpy` / cursor writes of
`commonFlush` stay in bounds. The starting state covers `beginFlush`
(slice length 0) and, since `ms` ranges over every prefix, every
intermediate call of a cycle. -/
theorem flushAll_slice_within_capacity (ms : List Metric) :
    ∀ s : TlsSink, (∀ m ∈ ms, wellSized m) →
    s.slice.length ≤ FlushSliceSizeBytes →
    (flushAll ms s).slice.length ≤ FlushSliceSizeBytes := by
  induction ms with
  | nil => intro s _ hs; simpa [flushAll] using hs
  | cons m ms ih =>
    intro s hms hs
    have hm := hms m (List.mem_cons_self m ms)
    have hstep : (flushMetric m s).slice.length ≤ FlushSliceSizeBytes := by
      cases m with
      | counter n d => exact commonFlush_slice_bound n d 'c' s hm.1 hm.2 hs
      | gauge n v => exact commonFlush_slice_bound n v 'g' s hm.1 hm.2 hs
    have hrest : ∀ m₂ ∈ ms, wellSized m₂ :=
      fun m₂ hm₂ => hms m₂ (List.mem_cons_of_mem m hm₂)
    show (flushAll ms (flushMetric m s)).slice.length ≤ FlushSliceSizeBytes
    exact ih (flushMetric m s) hrest hstep

/-- Witness for `flushAll_slice_within_capacity`: a two-call cycle from a
fresh slice. -/
theorem flushAll_slice_within_capacity_witness :
    (flushAll [Metric.counter "test_counter".toList 1,
               Metric.gauge "test_gauge".toList 2]
        (TlsSink.beginFlush true ⟨[], false, [], ⟨true, 0⟩⟩)).slice.length
      ≤ FlushSliceSizeBytes :=
  flushAll_slice_within_capacity
    [Metric.counter "test_counter".toList 1,
     Metric.gauge "test_gauge".toList 2]
    (TlsSink.beginFlush true ⟨[], false, [], ⟨true, 0⟩⟩)
    (by
      intro m hm
      simp only [List.mem_cons, List.not_mem_nil, or_false] at hm
      rcases hm with h | h <;> subst h <;>
        exact ⟨by decide, by decide⟩)
    (by decide)

end Statsd
